import Mathlib

/-!
Shallow embedding of the timetable management program (`main.py`).

The program is a single Python class `TimetableManager` whose state consists of
Python dicts.  Dicts are embedded as association lists with Python semantics:
`d[k] = v` updates an existing key in place (keeping its position) or appends a
new binding at the end, `d[k]` is a lookup that may fail (a `KeyError`), and
`k in d` is membership.  Fallible lookups are modelled with `Option`; a `none`
propagating out of an operation models an uncaught `KeyError`.
-/

namespace Timetable

/-- Python `d[k]` as a total function to `Option`: the value at the first
binding of `k`, or `none` (a `KeyError`) when `k` is absent. -/
def dget {κ ν : Type} [DecidableEq κ] : List (κ × ν) → κ → Option ν
  | [], _ => none
  | (a, b) :: rest, k => if a = k then some b else dget rest k

/-- Python `d[k] = v`: update the binding of `k` in place when present
(keeping its position), otherwise append `(k, v)` at the end. -/
def dset {κ ν : Type} [DecidableEq κ] : List (κ × ν) → κ → ν → List (κ × ν)
  | [], k, v => [(k, v)]
  | (a, b) :: rest, k, v =>
    if a = k then (k, v) :: rest else (a, b) :: dset rest k v

/-- Python `k in d`. -/
def dmem {κ ν : Type} [DecidableEq κ] (d : List (κ × ν)) (k : κ) : Bool :=
  (dget d k).isSome

/-- A time slot is an opaque token; the program uses `(day, period)` string
pairs such as `('Monday', '9:00-10:00')`. -/
abbrev Slot := String × String

/-- One entry of the input class list: the Python dict
`{'name': …, 'professor': …, 'group': …, 'size': …}`, where the `size` key
may be absent (`cls.get('size', 20)` defaults it to 20). -/
structure ClassSession where
  name : String
  professor : String
  group : String
  size : Option Nat
deriving DecidableEq, Repr

/-- An occupancy record, the value stored in a schedule dict:
`{'class': …, 'room': …, 'group': …}` on the professor side and
`{'class': …, 'room': …, 'professor': …}` on the group side.  The field
`other` holds the group on the professor side and the professor on the
group side. -/
structure Occ where
  className : String
  room : String
  other : String
deriving DecidableEq, Repr

/-- The mutable state of a `TimetableManager` object. -/
structure TimetableManager where
  classes : List ClassSession
  professors : List String
  groups : List String
  time_slots : List Slot
  rooms : List String
  room_capacity : List (String × Nat)
  class_sizes : List (String × Nat)
  professor_preferences : List (String × List Slot)
  group_preferences : List (String × List Slot)
  professor_schedule : List (String × List (Slot × Occ))
  group_schedule : List (String × List (Slot × Occ))
deriving DecidableEq, Repr

/-- `self.class_sizes = {cls['name']: cls.get('size', 20) for cls in classes}`:
a dict comprehension, so a later class with the same name overwrites the
earlier one's size. -/
def class_sizes_of (classes : List ClassSession) : List (String × Nat) :=
  classes.foldl (fun acc c => dset acc c.name (c.size.getD 20)) []

/-- `TimetableManager.__init__`.  `room_capacities` is the optional constructor
argument; Python's `room_capacities if room_capacities else {room: 30 for room
in rooms}` treats both `None` and an empty dict as falsy, so only then does
every room default to capacity 30 — a non-empty partial mapping is stored
as-is. -/
def TimetableManager.init (classes : List ClassSession) (professors groups : List String)
    (time_slots : List Slot) (rooms : List String)
    (room_capacities : Option (List (String × Nat))) : TimetableManager :=
  { classes := classes
    professors := professors
    groups := groups
    time_slots := time_slots
    rooms := rooms
    room_capacity :=
      match room_capacities with
      | some caps =>
        if caps.isEmpty then rooms.foldl (fun acc r => dset acc r 30) [] else caps
      | none => rooms.foldl (fun acc r => dset acc r 30) []
    class_sizes := class_sizes_of classes
    professor_preferences := professors.foldl (fun acc p => dset acc p ([] : List Slot)) []
    group_preferences := groups.foldl (fun acc g => dset acc g ([] : List Slot)) []
    professor_schedule :=
      professors.foldl (fun acc p => dset acc p ([] : List (Slot × Occ))) []
    group_schedule :=
      groups.foldl (fun acc g => dset acc g ([] : List (Slot × Occ))) [] }

/-- `set_professor_preferences`: replaces the list when the professor id is a
key of `professor_preferences`, otherwise does nothing. -/
def set_professor_preferences (m : TimetableManager) (professor : String)
    (preferences : List Slot) : TimetableManager :=
  if dmem m.professor_preferences professor then
    { m with professor_preferences := dset m.professor_preferences professor preferences }
  else m

/-- `set_group_preferences`: symmetric to `set_professor_preferences`. -/
def set_group_preferences (m : TimetableManager) (group : String)
    (preferences : List Slot) : TimetableManager :=
  if dmem m.group_preferences group then
    { m with group_preferences := dset m.group_preferences group preferences }
  else m

/-- `get_preferred_slots`: `list(set(prof_preferences) & set(group_preferences))`.
The Python set intersection is deduplicated and its iteration order is
unspecified; we fix the professor-list order (filter then dedup), which is one
admissible refinement of the unordered-set semantics. -/
def get_preferred_slots (m : TimetableManager) (cls : ClassSession) : List Slot :=
  (((dget m.professor_preferences cls.professor).getD []).filter
    (fun s => decide (s ∈ (dget m.group_preferences cls.group).getD []))).dedup

/-- `is_valid`: the three-conjunct feasibility test.  Python's `and` short
circuits, so the group lookup only happens when the professor is free at the
slot and the room-capacity lookup (`self.room_capacity[room]`, a possible
`KeyError`) only happens when both are free. -/
def is_valid (m : TimetableManager) (cls : ClassSession) (slot : Slot)
    (room : String) : Option Bool :=
  (dget m.class_sizes cls.name).bind fun class_size =>
  (dget m.professor_schedule cls.professor).bind fun psched =>
  if dmem psched slot then some false else
  (dget m.group_schedule cls.group).bind fun gsched =>
  if dmem gsched slot then some false else
  (dget m.room_capacity room).bind fun cap =>
  some (decide (class_size ≤ cap))

/-- `assign_schedule`: writes the professor-side and group-side occupancy
records (`self.professor_schedule[prof][time_slot] = {...}` and the group
analogue). -/
def assign_schedule (m : TimetableManager) (cls : ClassSession) (slot : Slot)
    (room : String) : Option TimetableManager :=
  (dget m.professor_schedule cls.professor).bind fun psched =>
  (dget m.group_schedule cls.group).bind fun gsched =>
  some { m with
    professor_schedule :=
      dset m.professor_schedule cls.professor
        (dset psched slot ⟨cls.name, room, cls.group⟩)
    group_schedule :=
      dset m.group_schedule cls.group
        (dset gsched slot ⟨cls.name, room, cls.professor⟩) }

/-- One of the diagnostic reason strings printed by `provide_feedback`,
with the data interpolated into the f-string kept as payload. -/
inductive Reason where
  | noProfSlots (prof : String)
  | noGroupSlots (group : String)
  | noRoomFits (className : String) (size : Nat)
deriving DecidableEq, Repr

/-- The generator `all(time_slot in self.professor_schedule[prof] for
time_slot in self.time_slots)` (and its group analogue): the dict lookup
happens inside the generator, so it is only reached when there is a slot to
test, and the generator stops at the first free slot. -/
def all_slots_in (d : List (String × List (Slot × Occ))) (owner : String) :
    List Slot → Option Bool
  | [] => some true
  | t :: ts =>
    (dget d owner).bind fun sched =>
    if dmem sched t then all_slots_in d owner ts else some false

/-- The generator `all(class_size > self.room_capacity[room] for room in
self.rooms)`: the capacity lookup (a possible `KeyError`) happens per room and
the generator stops at the first sufficiently large room. -/
def all_rooms_too_small (caps : List (String × Nat)) (class_size : Nat) :
    List String → Option Bool
  | [] => some true
  | r :: rs =>
    (dget caps r).bind fun cap =>
    if decide (class_size > cap) then all_rooms_too_small caps class_size rs
    else some false

/-- `provide_feedback`: computes the three independent exhaustion conditions
and collects, in order, a reason for each one that holds.  The Python code
prints the reasons (and prints nothing when the list is empty); the embedding
returns the list. -/
def provide_feedback (m : TimetableManager) (cls : ClassSession) :
    Option (List Reason) :=
  (dget m.class_sizes cls.name).bind fun class_size =>
  (all_slots_in m.professor_schedule cls.professor m.time_slots).bind fun profEx =>
  (all_slots_in m.group_schedule cls.group m.time_slots).bind fun groupEx =>
  (all_rooms_too_small m.room_capacity class_size m.rooms).bind fun noRoom =>
  some ((if profEx then [Reason.noProfSlots cls.professor] else []) ++
        (if groupEx then [Reason.noGroupSlots cls.group] else []) ++
        (if noRoom then [Reason.noRoomFits cls.name class_size] else []))

/-- The inner loop of `generate_schedule`: scan the room list in order for the
first room passing `is_valid` at the given slot.  Outer `none` is a crash
(uncaught `KeyError` inside `is_valid`); inner `none` means no room fits. -/
def find_room (m : TimetableManager) (cls : ClassSession) (slot : Slot) :
    List String → Option (Option String)
  | [] => some none
  | r :: rs =>
    (is_valid m cls slot r).bind fun v =>
    if v then some (some r) else find_room m cls slot rs

/-- The outer loop of `generate_schedule` for one class: scan the candidate
slot list in order for the first slot with an admissible room. -/
def find_assignment (m : TimetableManager) (cls : ClassSession) :
    List Slot → Option (Option (Slot × String))
  | [] => some none
  | s :: ss =>
    (find_room m cls s m.rooms).bind fun res =>
    match res with
    | some r => some (some (s, r))
    | none => find_assignment m cls ss

/-- What happened to one class during `generate_schedule`. -/
inductive ScheduleOutcome where
  | assigned (slot : Slot) (room : String)
  | rejected (reasons : List Reason)
deriving DecidableEq, Repr

/-- The body of `generate_schedule` for a single class: try the preferred
slots first, then the whole slot universe; commit the first feasible pair via
`assign_schedule`, otherwise call `provide_feedback`. -/
def schedule_class (m : TimetableManager) (cls : ClassSession) :
    Option (TimetableManager × ScheduleOutcome) :=
  (find_assignment m cls (get_preferred_slots m cls ++ m.time_slots)).bind fun res =>
  match res with
  | some (s, r) =>
    (assign_schedule m cls s r).bind fun m' =>
    some (m', ScheduleOutcome.assigned s r)
  | none =>
    (provide_feedback m cls).bind fun reasons =>
    some (m, ScheduleOutcome.rejected reasons)

/-- `generate_schedule`'s loop over the class list, accumulating the outcome
of every class in input order. -/
def generate_schedule_aux (m : TimetableManager)
    (log : List (ClassSession × ScheduleOutcome)) :
    List ClassSession → Option (TimetableManager × List (ClassSession × ScheduleOutcome))
  | [] => some (m, log)
  | c :: cs =>
    (schedule_class m c).bind fun r =>
    generate_schedule_aux r.1 (log ++ [(c, r.2)]) cs

/-- `generate_schedule`: one pass over `self.classes` in input order. -/
def generate_schedule (m : TimetableManager) :
    Option (TimetableManager × List (ClassSession × ScheduleOutcome)) :=
  generate_schedule_aux m [] m.classes

/-! ### The example usage at the bottom of `main.py` -/

def exampleRooms : List String := ["Room 101", "Room 102", "Room 103"]

def exampleRoomCapacities : List (String × Nat) :=
  [("Room 101", 20), ("Room 102", 50), ("Room 103", 40)]

def exampleClasses : List ClassSession :=
  [⟨"Math", "Prof. A", "Group 1", some 25⟩,
   ⟨"Physics", "Prof. B", "Group 2", some 20⟩,
   ⟨"Chemistry", "Prof. C", "Group 3", some 35⟩,
   ⟨"Chemistry", "Prof. C", "Group 3", some 35⟩,
   ⟨"Chemistry", "Prof. C", "Group 3", some 35⟩]

def exampleSlots : List Slot :=
  [("Monday", "9:00-10:00"), ("Monday", "10:00-11:00"), ("Monday", "11:00-12:00"),
   ("Tuesday", "9:00-10:00"), ("Tuesday", "10:00-11:00"), ("Tuesday", "11:00-12:00")]

/-- The manager of the example usage, after the two preference-setting calls. -/
def exampleManager : TimetableManager :=
  set_group_preferences
    (set_professor_preferences
      (TimetableManager.init exampleClasses ["Prof. A", "Prof. B", "Prof. C"]
        ["Group 1", "Group 2", "Group 3"] exampleSlots exampleRooms
        (some exampleRoomCapacities))
      "Prof. A" [("Monday", "9:00-10:00"), ("Tuesday", "10:00-11:00")])
    "Group 1" [("Monday", "9:00-10:00"), ("Monday", "10:00-11:00")]

/-! ### Predicates used to state the verified properties -/

/-- Every inner schedule dict has pairwise-distinct slot keys: at most one
occupancy record per (owner, time slot). -/
def InnerNodup (d : List (String × List (Slot × Occ))) : Prop :=
  ∀ e ∈ d, (e.2.map Prod.fst).Nodup

/-- A single occupancy record satisfies the capacity constraint with respect
to the (name-keyed) class-size table: the size registered for the record's
class name is at most the capacity registered for the record's room. -/
def capRecordOKb (m : TimetableManager) (rec : Occ) : Bool :=
  match dget m.class_sizes rec.className, dget m.room_capacity rec.room with
  | some sz, some cap => decide (sz ≤ cap)
  | _, _ => false

/-- Every occupancy record in the schedule dict `d` satisfies the capacity
constraint of `capRecordOKb`. -/
def CapOK (m : TimetableManager) (d : List (String × List (Slot × Occ))) : Prop :=
  ∀ e ∈ d, ∀ rec ∈ e.2, capRecordOKb m rec.2 = true

instance innerNodupDecidable (d : List (String × List (Slot × Occ))) :
    Decidable (InnerNodup d) :=
  decidable_of_iff (∀ e ∈ d, (e.2.map Prod.fst).Nodup) Iff.rfl

instance capOKDecidable (m : TimetableManager) (d : List (String × List (Slot × Occ))) :
    Decidable (CapOK m d) :=
  decidable_of_iff (∀ e ∈ d, ∀ rec ∈ e.2, capRecordOKb m rec.2 = true) Iff.rfl

/-- Every occupancy record of `d` survives unchanged in `d'`: records are
never overwritten or removed. -/
def RecordsPreserved (d d' : List (String × List (Slot × Occ))) : Prop :=
  ∀ p sched t occ, dget d p = some sched → dget sched t = some occ →
    ∃ sched', dget d' p = some sched' ∧ dget sched' t = some occ

/-- Everything a single scheduling step (and hence a whole run) preserves. -/
def StepOK (m m' : TimetableManager) : Prop :=
  m'.class_sizes = m.class_sizes ∧
  m'.room_capacity = m.room_capacity ∧
  RecordsPreserved m.professor_schedule m'.professor_schedule ∧
  RecordsPreserved m.group_schedule m'.group_schedule ∧
  (InnerNodup m.professor_schedule → InnerNodup m'.professor_schedule) ∧
  (InnerNodup m.group_schedule → InnerNodup m'.group_schedule) ∧
  (CapOK m m.professor_schedule → CapOK m' m'.professor_schedule) ∧
  (CapOK m m.group_schedule → CapOK m' m'.group_schedule)

/-- Professor `p` is exhausted: every slot of the universe carries an
occupancy record for `p`. -/
def ProfExhausted (m : TimetableManager) (p : String) : Prop :=
  ∀ t ∈ m.time_slots, ∃ sched,
    dget m.professor_schedule p = some sched ∧ dmem sched t = true

/-- Group `g` is exhausted: every slot of the universe carries an occupancy
record for `g`. -/
def GroupExhausted (m : TimetableManager) (g : String) : Prop :=
  ∀ t ∈ m.time_slots, ∃ sched,
    dget m.group_schedule g = some sched ∧ dmem sched t = true

/-- No room fits: the class size exceeds every room's registered capacity. -/
def NoRoomFits (m : TimetableManager) (class_size : Nat) : Prop :=
  ∀ r ∈ m.rooms, ∃ cap, dget m.room_capacity r = some cap ∧ class_size > cap

/-- The size (with the `20` default) of the last class in the list bearing a
given name — the "last definition wins" reading of the class-size table. -/
def lastSizeFor : List ClassSession → String → Option Nat
  | [], _ => none
  | c :: cs, n =>
    match lastSizeFor cs n with
    | some s => some s
    | none => if c.name = n then some (c.size.getD 20) else none

/-- Whether an outcome is a successful assignment. -/
def ScheduleOutcome.isAssigned : ScheduleOutcome → Bool
  | .assigned _ _ => true
  | .rejected _ => false

/-- Log entry testing: a seated Chemistry section. -/
def chemAssignedEntry (e : ClassSession × ScheduleOutcome) : Bool :=
  decide (e.1.name = "Chemistry") && e.2.isAssigned

/-- Log entry testing: a rejected class. -/
def rejectedEntry (e : ClassSession × ScheduleOutcome) : Bool :=
  !e.2.isAssigned

/-! ### Small concrete scenarios used as witnesses and counterexamples -/

/-- Two distinct sessions sharing the name `X` with different sizes: the
class-size table resolves both to the size of the *last* one. -/
def cexClassBig : ClassSession := ⟨"X", "P1", "G1", some 100⟩

def cexClassSmall : ClassSession := ⟨"X", "P2", "G2", some 10⟩

def cexManager : TimetableManager :=
  TimetableManager.init [cexClassBig, cexClassSmall] ["P1", "P2"] ["G1", "G2"]
    [("Mon", "9")] ["R"] (some [("R", 10)])

/-- A room list of which the supplied capacity mapping covers only `R1`. -/
def sparseCapClass : ClassSession := ⟨"X", "P", "G", some 10⟩

def sparseCapManager : TimetableManager :=
  TimetableManager.init [sparseCapClass] ["P"] ["G"]
    [("Mon", "9")] ["R1", "R2"] (some [("R1", 20)])

/-- A minimal fully-defaulted manager with a single schedulable class. -/
def smallClass : ClassSession := ⟨"X", "P", "G", some 10⟩

def smallManager : TimetableManager :=
  TimetableManager.init [smallClass] ["P"] ["G"] [("Mon", "9")] ["R"] none

/-- `smallManager` with a field `is_valid` never reads changed. -/
def smallManagerVariant : TimetableManager :=
  { smallManager with time_slots := [] }

/-- A manager whose professor and group share the preferred slot `(Mon, 10)`,
the second slot of the universe. -/
def prefClass : ClassSession := ⟨"X", "P", "G", some 10⟩

def prefManager : TimetableManager :=
  set_group_preferences
    (set_professor_preferences
      (TimetableManager.init [prefClass] ["P"] ["G"]
        [("Mon", "9"), ("Mon", "10")] ["R"] none)
      "P" [("Mon", "10")])
    "G" [("Mon", "10")]

/-- A state in which professor `P` already occupies the whole (one-slot)
universe, and a further class of `P` is about to be processed. -/
def exhaustedClass : ClassSession := ⟨"Y", "P", "G2", some 10⟩

def exhaustedManager : TimetableManager :=
  { classes := [exhaustedClass]
    professors := ["P"]
    groups := ["G", "G2"]
    time_slots := [("Mon", "9")]
    rooms := ["R"]
    room_capacity := [("R", 30)]
    class_sizes := [("Y", 10)]
    professor_preferences := [("P", [])]
    group_preferences := [("G", []), ("G2", [])]
    professor_schedule := [("P", [(("Mon", "9"), ⟨"X", "R", "G"⟩)])]
    group_schedule := [("G", [(("Mon", "9"), ⟨"X", "R", "P"⟩)]), ("G2", [])] }

/-! ### Lemmas about the dict model -/

theorem dget_dset_self {κ ν : Type} [DecidableEq κ] (d : List (κ × ν)) (k : κ) (v : ν) :
    dget (dset d k v) k = some v := by
  induction d with
  | nil => simp [dset, dget]
  | cons e rest ih =>
    obtain ⟨a, b⟩ := e
    by_cases h : a = k
    · simp [dset, h, dget]
    · simp [dset, h, dget, ih]

theorem dget_dset_ne {κ ν : Type} [DecidableEq κ] (d : List (κ × ν)) (k k' : κ) (v : ν)
    (h : k' ≠ k) : dget (dset d k v) k' = dget d k' := by
  induction d with
  | nil => simp [dset, dget, Ne.symm h]
  | cons e rest ih =>
    obtain ⟨a, b⟩ := e
    by_cases ha : a = k
    · subst ha
      simp [dset, dget, Ne.symm h]
    · by_cases hk : a = k'
      · simp [dset, dget, ha, hk, h]
      · simp [dset, dget, ha, hk, ih]

theorem mem_dset {κ ν : Type} [DecidableEq κ] (d : List (κ × ν)) (k : κ) (v : ν)
    (e : κ × ν) (he : e ∈ dset d k v) : e ∈ d ∨ e = (k, v) := by
  induction d with
  | nil =>
    simp [dset] at he
    simp [he]
  | cons a rest ih =>
    by_cases ha : a.1 = k
    · rw [show dset (a :: rest) k v = (k, v) :: rest by
        obtain ⟨a1, a2⟩ := a; simp [dset] at ha ⊢; simp [ha]] at he
      rcases List.mem_cons.mp he with h | h
      · exact Or.inr h
      · exact Or.inl (List.mem_cons_of_mem _ h)
    · rw [show dset (a :: rest) k v = a :: dset rest k v by
        obtain ⟨a1, a2⟩ := a; simp [dset] at ha ⊢; simp [ha]] at he
      rcases List.mem_cons.mp he with h | h
      · exact Or.inl (by simp [h])
      · rcases ih h with h' | h'
        · exact Or.inl (List.mem_cons_of_mem _ h')
        · exact Or.inr h'

theorem dget_mem {κ ν : Type} [DecidableEq κ] (d : List (κ × ν)) (k : κ) (v : ν)
    (h : dget d k = some v) : (k, v) ∈ d := by
  induction d with
  | nil => simp [dget] at h
  | cons e rest ih =>
    obtain ⟨a, b⟩ := e
    by_cases ha : a = k
    · subst ha
      simp [dget] at h
      simp [h]
    · simp [dget, ha] at h
      exact List.mem_cons_of_mem _ (ih h)

theorem mem_keys_dset {κ ν : Type} [DecidableEq κ] (d : List (κ × ν)) (k : κ) (v : ν)
    (x : κ) (hx : x ∈ (dset d k v).map Prod.fst) :
    x ∈ d.map Prod.fst ∨ x = k := by
  rw [List.mem_map] at hx
  obtain ⟨e, he, hex⟩ := hx
  rcases mem_dset d k v e he with h | h
  · exact Or.inl (hex ▸ List.mem_map_of_mem Prod.fst h)
  · subst h
    exact Or.inr hex.symm

theorem keys_dset_nodup {κ ν : Type} [DecidableEq κ] (d : List (κ × ν)) (k : κ) (v : ν)
    (h : (d.map Prod.fst).Nodup) : ((dset d k v).map Prod.fst).Nodup := by
  induction d with
  | nil => simp [dset]
  | cons e rest ih =>
    obtain ⟨a, b⟩ := e
    rw [List.map_cons, List.nodup_cons] at h
    by_cases ha : a = k
    · subst ha
      simpa [dset, List.nodup_cons] using h
    · rw [show dset ((a, b) :: rest) k v = (a, b) :: dset rest k v by simp [dset, ha]]
      rw [List.map_cons, List.nodup_cons]
      refine ⟨fun hmem => ?_, ih h.2⟩
      rcases mem_keys_dset rest k v a hmem with h' | h'
      · exact h.1 h'
      · exact ha h'

theorem dmem_false_dget {κ ν : Type} [DecidableEq κ] {d : List (κ × ν)} {k : κ}
    (h : ¬ dmem d k = true) : dget d k = none := by
  unfold dmem at h
  cases hd : dget d k with
  | none => rfl
  | some v => simp [hd] at h

/-! ### Lemmas about the feasibility checker and the search loops -/

theorem is_valid_true_elim {m : TimetableManager} {cls : ClassSession} {slot : Slot}
    {room : String} (h : is_valid m cls slot room = some true) :
    ∃ sz psched gsched cap,
      dget m.class_sizes cls.name = some sz ∧
      dget m.professor_schedule cls.professor = some psched ∧
      dget psched slot = none ∧
      dget m.group_schedule cls.group = some gsched ∧
      dget gsched slot = none ∧
      dget m.room_capacity room = some cap ∧
      sz ≤ cap := by
  unfold is_valid at h
  rw [Option.bind_eq_some] at h
  obtain ⟨sz, hsz, h⟩ := h
  rw [Option.bind_eq_some] at h
  obtain ⟨psched, hps, h⟩ := h
  by_cases hp : dmem psched slot = true
  · simp [hp] at h
  · rw [if_neg hp, Option.bind_eq_some] at h
    obtain ⟨gsched, hgs, h⟩ := h
    by_cases hg : dmem gsched slot = true
    · simp [hg] at h
    · rw [if_neg hg, Option.bind_eq_some] at h
      obtain ⟨cap, hcap, h⟩ := h
      refine ⟨sz, psched, gsched, cap, hsz, hps, dmem_false_dget hp, hgs,
        dmem_false_dget hg, hcap, ?_⟩
      exact of_decide_eq_true (Option.some.inj h)

theorem find_room_sound {m : TimetableManager} {cls : ClassSession} {slot : Slot} :
    ∀ {rooms : List String} {r : String},
      find_room m cls slot rooms = some (some r) →
      is_valid m cls slot r = some true := by
  intro rooms
  induction rooms with
  | nil => intro r h; simp [find_room] at h
  | cons r₀ rs ih =>
    intro r h
    unfold find_room at h
    rw [Option.bind_eq_some] at h
    obtain ⟨v, hv, h⟩ := h
    cases v with
    | false => simpa using ih (by simpa using h)
    | true =>
      simp at h
      subst h
      exact hv

theorem find_room_complete {m : TimetableManager} {cls : ClassSession} {slot : Slot} :
    ∀ {rooms : List String} {r₀ : String}, r₀ ∈ rooms →
      is_valid m cls slot r₀ = some true →
      find_room m cls slot rooms ≠ some none := by
  intro rooms
  induction rooms with
  | nil => intro r₀ h; simp at h
  | cons r rs ih =>
    intro r₀ hmem hval h
    unfold find_room at h
    rw [Option.bind_eq_some] at h
    obtain ⟨v, hv, h⟩ := h
    cases v with
    | true => simp at h
    | false =>
      simp at h
      rcases List.mem_cons.mp hmem with rfl | hmem'
      · rw [hval] at hv
        simp at hv
      · exact ih hmem' hval h

theorem find_assignment_sound {m : TimetableManager} {cls : ClassSession} :
    ∀ {l : List Slot} {s : Slot} {r : String},
      find_assignment m cls l = some (some (s, r)) →
      is_valid m cls s r = some true := by
  intro l
  induction l with
  | nil => intro s r h; simp [find_assignment] at h
  | cons s₀ ss ih =>
    intro s r h
    unfold find_assignment at h
    rw [Option.bind_eq_some] at h
    obtain ⟨res, hres, h⟩ := h
    cases res with
    | some r₀ =>
      simp at h
      obtain ⟨hs, hr⟩ := h
      subst hs; subst hr
      exact find_room_sound hres
    | none => exact ih (by simpa using h)

theorem find_assignment_mem {m : TimetableManager} {cls : ClassSession} :
    ∀ {l : List Slot} {s : Slot} {r : String},
      find_assignment m cls l = some (some (s, r)) → s ∈ l := by
  intro l
  induction l with
  | nil => intro s r h; simp [find_assignment] at h
  | cons s₀ ss ih =>
    intro s r h
    unfold find_assignment at h
    rw [Option.bind_eq_some] at h
    obtain ⟨res, hres, h⟩ := h
    cases res with
    | some r₀ =>
      simp at h
      exact h.1 ▸ List.mem_cons_self s₀ ss
    | none => exact List.mem_cons_of_mem _ (ih (by simpa using h))

theorem find_assignment_prefers {m : TimetableManager} {cls : ClassSession} :
    ∀ {l₁ l₂ : List Slot} {s₀ : Slot} {r₀ : String} {res : Option (Slot × String)},
      s₀ ∈ l₁ → is_valid m cls s₀ r₀ = some true → r₀ ∈ m.rooms →
      find_assignment m cls (l₁ ++ l₂) = some res →
      ∃ s r, res = some (s, r) ∧ s ∈ l₁ := by
  intro l₁
  induction l₁ with
  | nil => intro l₂ s₀ r₀ res h; simp at h
  | cons s₁ ss ih =>
    intro l₂ s₀ r₀ res hmem hval hroom h
    rw [List.cons_append] at h
    unfold find_assignment at h
    rw [Option.bind_eq_some] at h
    obtain ⟨fr, hfr, h⟩ := h
    cases fr with
    | some r₁ =>
      simp at h
      exact ⟨s₁, r₁, h.symm, List.mem_cons_self s₁ ss⟩
    | none =>
      simp at h
      rcases List.mem_cons.mp hmem with rfl | hmem'
      · exact absurd hfr (find_room_complete hroom hval)
      · obtain ⟨s, r, hres, hs⟩ := ih hmem' hval hroom h
        exact ⟨s, r, hres, List.mem_cons_of_mem _ hs⟩

/-! ### Case analysis of one scheduling step -/

theorem schedule_class_cases {m : TimetableManager} {cls : ClassSession}
    {m' : TimetableManager} {out : ScheduleOutcome}
    (h : schedule_class m cls = some (m', out)) :
    (∃ s r, out = ScheduleOutcome.assigned s r ∧
       find_assignment m cls (get_preferred_slots m cls ++ m.time_slots) = some (some (s, r)) ∧
       assign_schedule m cls s r = some m') ∨
    (∃ reasons, out = ScheduleOutcome.rejected reasons ∧ m' = m ∧
       find_assignment m cls (get_preferred_slots m cls ++ m.time_slots) = some none ∧
       provide_feedback m cls = some reasons) := by
  unfold schedule_class at h
  rw [Option.bind_eq_some] at h
  obtain ⟨res, hres, h⟩ := h
  cases res with
  | some sr =>
    obtain ⟨s, r⟩ := sr
    rw [show (match (some (s, r) : Option (Slot × String)) with
        | some (s, r) => (assign_schedule m cls s r).bind fun m' =>
            some (m', ScheduleOutcome.assigned s r)
        | none => (provide_feedback m cls).bind fun reasons =>
            some (m, ScheduleOutcome.rejected reasons)) =
        (assign_schedule m cls s r).bind fun m' =>
          some (m', ScheduleOutcome.assigned s r) from rfl] at h
    rw [Option.bind_eq_some] at h
    obtain ⟨m₁, hm₁, h⟩ := h
    simp at h
    exact Or.inl ⟨s, r, h.2.symm, hres, h.1 ▸ hm₁⟩
  | none =>
    rw [show (match (none : Option (Slot × String)) with
        | some (s, r) => (assign_schedule m cls s r).bind fun m' =>
            some (m', ScheduleOutcome.assigned s r)
        | none => (provide_feedback m cls).bind fun reasons =>
            some (m, ScheduleOutcome.rejected reasons)) =
        (provide_feedback m cls).bind fun reasons =>
          some (m, ScheduleOutcome.rejected reasons) from rfl] at h
    rw [Option.bind_eq_some] at h
    obtain ⟨reasons, hr, h⟩ := h
    simp at h
    exact Or.inr ⟨reasons, h.2.symm, h.1.symm, hres, hr⟩

theorem assign_schedule_elim {m : TimetableManager} {cls : ClassSession} {slot : Slot}
    {room : String} {m' : TimetableManager}
    (h : assign_schedule m cls slot room = some m') :
    ∃ psched gsched,
      dget m.professor_schedule cls.professor = some psched ∧
      dget m.group_schedule cls.group = some gsched ∧
      m' = { m with
        professor_schedule := dset m.professor_schedule cls.professor
          (dset psched slot ⟨cls.name, room, cls.group⟩)
        group_schedule := dset m.group_schedule cls.group
          (dset gsched slot ⟨cls.name, room, cls.professor⟩) } := by
  unfold assign_schedule at h
  rw [Option.bind_eq_some] at h
  obtain ⟨psched, hps, h⟩ := h
  rw [Option.bind_eq_some] at h
  obtain ⟨gsched, hgs, h⟩ := h
  exact ⟨psched, gsched, hps, hgs, (Option.some.inj h).symm⟩

/-! ### Preservation of the schedule invariants by one step -/

theorem stepOK_refl (m : TimetableManager) : StepOK m m :=
  ⟨rfl, rfl, fun _ _ _ _ h1 h2 => ⟨_, h1, h2⟩, fun _ _ _ _ h1 h2 => ⟨_, h1, h2⟩,
   id, id, id, id⟩

theorem stepOK_trans {m₁ m₂ m₃ : TimetableManager}
    (h12 : StepOK m₁ m₂) (h23 : StepOK m₂ m₃) : StepOK m₁ m₃ := by
  obtain ⟨hs12, hc12, hp12, hg12, hnp12, hng12, hcp12, hcg12⟩ := h12
  obtain ⟨hs23, hc23, hp23, hg23, hnp23, hng23, hcp23, hcg23⟩ := h23
  refine ⟨hs23.trans hs12, hc23.trans hc12, ?_, ?_,
    fun h => hnp23 (hnp12 h), fun h => hng23 (hng12 h),
    fun h => hcp23 (hcp12 h), fun h => hcg23 (hcg12 h)⟩
  · intro p sched t occ h1 h2
    obtain ⟨sched', h1', h2'⟩ := hp12 p sched t occ h1 h2
    exact hp23 p sched' t occ h1' h2'
  · intro p sched t occ h1 h2
    obtain ⟨sched', h1', h2'⟩ := hg12 p sched t occ h1 h2
    exact hg23 p sched' t occ h1' h2'

theorem records_preserved_dset {d : List (String × List (Slot × Occ))}
    {owner : String} {sched : List (Slot × Occ)} {slot : Slot} {occ' : Occ}
    (hd : dget d owner = some sched) (hfree : dget sched slot = none) :
    RecordsPreserved d (dset d owner (dset sched slot occ')) := by
  intro p sched₀ t occ h1 h2
  by_cases hp : p = owner
  · subst hp
    rw [hd] at h1
    obtain rfl := Option.some.inj h1
    refine ⟨dset sched slot occ', dget_dset_self _ _ _, ?_⟩
    have ht : t ≠ slot := by
      intro hts
      rw [hts, hfree] at h2
      cases h2
    rw [dget_dset_ne _ _ _ _ ht]
    exact h2
  · refine ⟨sched₀, ?_, h2⟩
    rw [dget_dset_ne _ _ _ _ hp]
    exact h1

theorem inner_nodup_dset {d : List (String × List (Slot × Occ))}
    {owner : String} {sched : List (Slot × Occ)} {slot : Slot} {occ' : Occ}
    (hd : dget d owner = some sched) (hn : InnerNodup d) :
    InnerNodup (dset d owner (dset sched slot occ')) := by
  intro e he
  rcases mem_dset _ _ _ _ he with h | h
  · exact hn e h
  · subst h
    exact keys_dset_nodup _ _ _ (hn (owner, sched) (dget_mem _ _ _ hd))

theorem capok_dset {m m' : TimetableManager} {d : List (String × List (Slot × Occ))}
    {owner : String} {sched : List (Slot × Occ)} {slot : Slot} {occ' : Occ}
    (hd : dget d owner = some sched)
    (hsz : m'.class_sizes = m.class_sizes) (hcap : m'.room_capacity = m.room_capacity)
    (hok : CapOK m d) (hnew : capRecordOKb m occ' = true) :
    CapOK m' (dset d owner (dset sched slot occ')) := by
  have hcongr : ∀ rec, capRecordOKb m' rec = capRecordOKb m rec := by
    intro rec
    unfold capRecordOKb
    rw [hsz, hcap]
  intro e he rec hrec
  rw [hcongr]
  rcases mem_dset _ _ _ _ he with h | h
  · exact hok e h rec hrec
  · subst h
    rcases mem_dset _ _ _ _ hrec with h' | h'
    · exact hok (owner, sched) (dget_mem _ _ _ hd) rec h'
    · subst h'
      exact hnew

theorem schedule_class_StepOK {m : TimetableManager} {cls : ClassSession}
    {m' : TimetableManager} {out : ScheduleOutcome}
    (h : schedule_class m cls = some (m', out)) : StepOK m m' := by
  rcases schedule_class_cases h with ⟨s, r, _, hfind, hassign⟩ | ⟨reasons, _, hm, _, _⟩
  · obtain ⟨psched, gsched, hps, hgs, hm'⟩ := assign_schedule_elim hassign
    have hval := find_assignment_sound hfind
    obtain ⟨sz, psched', gsched', cap, hsz, hps', hfree_p, hgs', hfree_g, hcap, hle⟩ :=
      is_valid_true_elim hval
    rw [hps] at hps'
    have hps'' := Option.some.inj hps'
    subst hps''
    rw [hgs] at hgs'
    have hgs'' := Option.some.inj hgs'
    subst hgs''
    subst hm'
    have hnewp : capRecordOKb m ⟨cls.name, r, cls.group⟩ = true := by
      unfold capRecordOKb
      rw [hsz, hcap]
      exact decide_eq_true hle
    have hnewg : capRecordOKb m ⟨cls.name, r, cls.professor⟩ = true := by
      unfold capRecordOKb
      rw [hsz, hcap]
      exact decide_eq_true hle
    exact ⟨rfl, rfl,
      records_preserved_dset hps hfree_p,
      records_preserved_dset hgs hfree_g,
      fun hn => inner_nodup_dset hps hn,
      fun hn => inner_nodup_dset hgs hn,
      fun hok => capok_dset hps rfl rfl hok hnewp,
      fun hok => capok_dset hgs rfl rfl hok hnewg⟩
  · subst hm
    exact stepOK_refl _

theorem generate_aux_StepOK :
    ∀ (cs : List ClassSession) (m : TimetableManager)
      (log logF : List (ClassSession × ScheduleOutcome)) (mF : TimetableManager),
      generate_schedule_aux m log cs = some (mF, logF) → StepOK m mF := by
  intro cs
  induction cs with
  | nil =>
    intro m log logF mF h
    simp [generate_schedule_aux] at h
    rw [h.1]
    exact stepOK_refl mF
  | cons c cs ih =>
    intro m log logF mF h
    unfold generate_schedule_aux at h
    rw [Option.bind_eq_some] at h
    obtain ⟨r, hr, h⟩ := h
    obtain ⟨m₁, out⟩ := r
    exact stepOK_trans (schedule_class_StepOK hr) (ih m₁ _ logF mF h)

theorem generate_schedule_StepOK {m mF : TimetableManager}
    {logF : List (ClassSession × ScheduleOutcome)}
    (h : generate_schedule m = some (mF, logF)) : StepOK m mF :=
  generate_aux_StepOK m.classes m [] logF mF h

/-! ### The freshly constructed state has empty schedules -/

theorem mem_foldl_dset_const {κ ν : Type} [DecidableEq κ] (v₀ : ν) :
    ∀ (l : List κ) (acc : List (κ × ν)) (e : κ × ν),
      e ∈ l.foldl (fun a k => dset a k v₀) acc → e ∈ acc ∨ e.2 = v₀ := by
  intro l
  induction l with
  | nil => intro acc e h; exact Or.inl h
  | cons k ks ih =>
    intro acc e h
    rcases ih (dset acc k v₀) e h with h' | h'
    · rcases mem_dset _ _ _ _ h' with h'' | h''
      · exact Or.inl h''
      · subst h''
        exact Or.inr rfl
    · exact Or.inr h'

theorem init_professor_schedule_empty (classes : List ClassSession)
    (professors groups : List String) (time_slots : List Slot) (rooms : List String)
    (room_capacities : Option (List (String × Nat))) :
    ∀ e ∈ (TimetableManager.init classes professors groups time_slots rooms
      room_capacities).professor_schedule, e.2 = ([] : List (Slot × Occ)) := by
  intro e he
  rcases mem_foldl_dset_const _ professors [] e he with h | h
  · simp at h
  · exact h

theorem init_group_schedule_empty (classes : List ClassSession)
    (professors groups : List String) (time_slots : List Slot) (rooms : List String)
    (room_capacities : Option (List (String × Nat))) :
    ∀ e ∈ (TimetableManager.init classes professors groups time_slots rooms
      room_capacities).group_schedule, e.2 = ([] : List (Slot × Occ)) := by
  intro e he
  rcases mem_foldl_dset_const _ groups [] e he with h | h
  · simp at h
  · exact h

/-! ### Claim C1: no double-booking -/

/-- C1: No double-booking.  A freshly constructed manager has empty (hence
duplicate-free) per-owner schedules, and any successful run of
`generate_schedule` from a state whose per-owner schedules are duplicate-free
leaves them duplicate-free — at most one occupancy record per (professor, slot)
and per (group, slot) — and never overwrites or removes an existing record,
because `assign_schedule` is only reached after `is_valid` confirmed that the
professor and the group are both free at the slot. -/
theorem no_double_booking :
    (∀ (classes : List ClassSession) (professors groups : List String)
       (time_slots : List Slot) (rooms : List String)
       (room_capacities : Option (List (String × Nat))),
       InnerNodup (TimetableManager.init classes professors groups time_slots rooms
         room_capacities).professor_schedule ∧
       InnerNodup (TimetableManager.init classes professors groups time_slots rooms
         room_capacities).group_schedule) ∧
    (∀ (m mF : TimetableManager) (logF : List (ClassSession × ScheduleOutcome)),
       InnerNodup m.professor_schedule → InnerNodup m.group_schedule →
       generate_schedule m = some (mF, logF) →
       InnerNodup mF.professor_schedule ∧ InnerNodup mF.group_schedule ∧
       RecordsPreserved m.professor_schedule mF.professor_schedule ∧
       RecordsPreserved m.group_schedule mF.group_schedule) := by
  constructor
  · intro classes professors groups time_slots rooms rc
    constructor
    · intro e he
      rw [init_professor_schedule_empty classes professors groups time_slots rooms rc e he]
      simp
    · intro e he
      rw [init_group_schedule_empty classes professors groups time_slots rooms rc e he]
      simp
  · intro m mF logF hn1 hn2 hrun
    obtain ⟨_, _, hp, hg, hnp, hng, _, _⟩ := generate_schedule_StepOK hrun
    exact ⟨hnp hn1, hng hn2, hp, hg⟩

/-- Witness for C1 at a concrete input. -/
theorem no_double_booking_witness :
    ∃ mF logF, generate_schedule smallManager = some (mF, logF) ∧
      InnerNodup mF.professor_schedule ∧ InnerNodup mF.group_schedule := by
  obtain ⟨mF, logF, hrun⟩ : ∃ mF logF, generate_schedule smallManager = some (mF, logF) :=
    ⟨_, _, rfl⟩
  have h := no_double_booking.2 smallManager mF logF (by decide) (by decide) hrun
  exact ⟨mF, logF, hrun, h.1, h.2.1⟩

/-! ### Claim C2: capacity respected -/

/-- C2 counterexample.  The claim as stated — every committed record's room
capacity is at least the *session's own* size — fails when two distinct
sessions share a name but declare different sizes: `cexClassBig` (named `X`,
own size 100) is committed to room `R` of capacity 10, because the size table
keyed by class name resolves `X` to the *later* session's size 10. -/
theorem capacity_claim_counterexample :
    ∃ mF logF sched occ,
      generate_schedule cexManager = some (mF, logF) ∧
      dget mF.professor_schedule "P1" = some sched ∧
      dget sched ("Mon", "9") = some occ ∧
      occ.room = "R" ∧
      dget cexManager.room_capacity "R" = some 10 ∧
      cexClassBig.professor = "P1" ∧
      cexClassBig.size.getD 20 = 100 ∧
      ¬ (cexClassBig.size.getD 20 ≤ 10) := by
  refine ⟨_, _, _, _, rfl, rfl, rfl, rfl, rfl, rfl, rfl, by decide⟩

/-- C2 amended: for every record committed by a successful run (from a state
whose existing records already satisfy it), the size registered in the
name-keyed class-size table for the record's class name — i.e. the size of the
*last* input session with that name, default 20 — is at most the capacity of
the assigned room. -/
theorem capacity_respected_by_name :
    ∀ (m mF : TimetableManager) (logF : List (ClassSession × ScheduleOutcome)),
      CapOK m m.professor_schedule → CapOK m m.group_schedule →
      generate_schedule m = some (mF, logF) →
      CapOK mF mF.professor_schedule ∧ CapOK mF mF.group_schedule := by
  intro m mF logF h1 h2 hrun
  obtain ⟨_, _, _, _, _, _, hcp, hcg⟩ := generate_schedule_StepOK hrun
  exact ⟨hcp h1, hcg h2⟩

/-- Witness for the amended C2 at a concrete input. -/
theorem capacity_respected_by_name_witness :
    ∃ mF logF, generate_schedule smallManager = some (mF, logF) ∧
      CapOK mF mF.professor_schedule ∧ CapOK mF mF.group_schedule := by
  obtain ⟨mF, logF, hrun⟩ : ∃ mF logF, generate_schedule smallManager = some (mF, logF) :=
    ⟨_, _, rfl⟩
  exact ⟨mF, logF, hrun,
    capacity_respected_by_name smallManager mF logF (by decide) (by decide) hrun⟩

/-! ### Claim C3: preference priority -/

/-- C3: Preference priority.  If, at the moment a class is processed, some
slot of the professor-and-group preference intersection admits a valid room,
then a successful `schedule_class` step commits the class to a slot of that
intersection — never to a slot outside it — because all preferred slots are
tried before the slot universe and the first-fit search cannot pass a feasible
preferred slot. -/
theorem preference_priority :
    ∀ (m : TimetableManager) (cls : ClassSession) (s₀ : Slot) (r₀ : String)
      (mF : TimetableManager) (out : ScheduleOutcome),
      s₀ ∈ get_preferred_slots m cls →
      r₀ ∈ m.rooms →
      is_valid m cls s₀ r₀ = some true →
      schedule_class m cls = some (mF, out) →
      ∃ s r, out = ScheduleOutcome.assigned s r ∧ s ∈ get_preferred_slots m cls := by
  intro m cls s₀ r₀ mF out hs hr hval hrun
  rcases schedule_class_cases hrun with ⟨s, r, hout, hfind, _⟩ | ⟨reasons, _, _, hfind, _⟩
  · obtain ⟨s', r', hres, hs'⟩ := find_assignment_prefers hs hval hr hfind
    obtain ⟨rfl, rfl⟩ := Prod.mk.inj (Option.some.inj hres)
    exact ⟨_, _, hout, hs'⟩
  · obtain ⟨s', r', hres, _⟩ := find_assignment_prefers hs hval hr hfind
    simp at hres

/-- Witness for C3 at a concrete input: professor and group share the
preferred slot `(Mon, 10)`, the second slot of the universe, and the class is
indeed committed there. -/
theorem preference_priority_witness :
    ∃ mF out s r, schedule_class prefManager prefClass = some (mF, out) ∧
      out = ScheduleOutcome.assigned s r ∧ s ∈ get_preferred_slots prefManager prefClass := by
  obtain ⟨mF, out, hrun⟩ : ∃ mF out, schedule_class prefManager prefClass = some (mF, out) :=
    ⟨_, _, rfl⟩
  obtain ⟨s, r, hout, hsmem⟩ := preference_priority prefManager prefClass ("Mon", "10") "R"
    mF out (by decide) (by decide) (by decide) hrun
  exact ⟨mF, out, s, r, hrun, hout, hsmem⟩

/-! ### Claim C4: the reference scenario -/

/-- C4 counterexample.  On the reference inputs of `main.py` the engine seats
*all three* Chemistry sections (rooms are never conflict-checked, so Room 102
is reused at three Monday slots) and rejects no class at all — contradicting
the claim that at most 2 of the 3 sections are seated and the third is
reported with a reason. -/
theorem reference_scenario_counterexample :
    ∃ mF logF, generate_schedule exampleManager = some (mF, logF) ∧
      logF.countP chemAssignedEntry = 3 ∧
      logF.countP rejectedEntry = 0 := by
  refine ⟨_, _, rfl, by decide, by decide⟩

/-- C4 amended: on the reference inputs, Math is assigned to
(Monday 9:00-10:00) in Room 102 (capacity 50 ≥ 25), Physics to the same slot
in Room 101, and all three Chemistry sections are seated at the three Monday
slots in Room 102; no class is rejected. -/
theorem reference_scenario_outcome :
    ∃ mF logF, generate_schedule exampleManager = some (mF, logF) ∧
      logF.map (fun e => (e.1.name, e.2)) =
        [("Math", ScheduleOutcome.assigned ("Monday", "9:00-10:00") "Room 102"),
         ("Physics", ScheduleOutcome.assigned ("Monday", "9:00-10:00") "Room 101"),
         ("Chemistry", ScheduleOutcome.assigned ("Monday", "9:00-10:00") "Room 102"),
         ("Chemistry", ScheduleOutcome.assigned ("Monday", "10:00-11:00") "Room 102"),
         ("Chemistry", ScheduleOutcome.assigned ("Monday", "11:00-12:00") "Room 102")] ∧
      dget exampleManager.room_capacity "Room 102" = some 50 ∧
      (25 : Nat) ≤ 50 := by
  refine ⟨_, _, rfl, by decide, rfl, by decide⟩

/-! ### Claim C5: default room capacity -/

/-- C5 counterexample.  When a *partial* capacity mapping is supplied (here
covering only `R1`), the uncovered room `R2` does not default to capacity 30:
its lookup fails, and `is_valid` for it fails with a `KeyError` (modelled as
`none`) instead of completing. -/
theorem default_capacity_counterexample :
    "R2" ∈ sparseCapManager.rooms ∧
    dget sparseCapManager.room_capacity "R2" = none ∧
    is_valid sparseCapManager sparseCapClass ("Mon", "9") "R2" = none := by
  exact ⟨by decide, rfl, rfl⟩

theorem dget_foldl_dset_const_not_mem {κ ν : Type} [DecidableEq κ] (v₀ : ν) :
    ∀ (l : List κ) (acc : List (κ × ν)) (k : κ), k ∉ l →
      dget (l.foldl (fun a x => dset a x v₀) acc) k = dget acc k := by
  intro l
  induction l with
  | nil => intro acc k _; rfl
  | cons x xs ih =>
    intro acc k hk
    rw [List.foldl_cons, ih (dset acc x v₀) k (fun h => hk (List.mem_cons_of_mem _ h)),
      dget_dset_ne _ _ _ _ (fun h => hk (by rw [h]; exact List.mem_cons_self x xs))]

theorem dget_foldl_dset_const_mem {κ ν : Type} [DecidableEq κ] (v₀ : ν) :
    ∀ (l : List κ) (acc : List (κ × ν)) (k : κ), k ∈ l →
      dget (l.foldl (fun a x => dset a x v₀) acc) k = some v₀ := by
  intro l
  induction l with
  | nil => intro acc k hk; simp at hk
  | cons x xs ih =>
    intro acc k hk
    rw [List.foldl_cons]
    by_cases hmem : k ∈ xs
    · exact ih (dset acc x v₀) k hmem
    · rcases List.mem_cons.mp hk with rfl | h'
      · rw [dget_foldl_dset_const_not_mem v₀ xs (dset acc k v₀) k hmem]
        exact dget_dset_self _ _ _
      · exact absurd h' hmem

/-- C5 amended: every room defaults to capacity 30 precisely when the
constructor receives *no* capacity mapping (`None`) or an *empty* one (both
falsy in Python); a non-empty partial mapping is stored as-is and uncovered
rooms fail to look up (see the counterexample). -/
theorem default_capacity_thirty :
    ∀ (classes : List ClassSession) (professors groups : List String)
      (time_slots : List Slot) (rooms : List String) (r : String), r ∈ rooms →
      dget (TimetableManager.init classes professors groups time_slots rooms
        none).room_capacity r = some 30 ∧
      dget (TimetableManager.init classes professors groups time_slots rooms
        (some [])).room_capacity r = some 30 := by
  intro classes professors groups time_slots rooms r hr
  constructor
  · exact dget_foldl_dset_const_mem 30 rooms [] r hr
  · exact dget_foldl_dset_const_mem 30 rooms [] r hr

/-- Witness for the amended C5 at a concrete input. -/
theorem default_capacity_thirty_witness :
    dget (TimetableManager.init [smallClass] ["P"] ["G"] [("Mon", "9")] ["R"]
      none).room_capacity "R" = some 30 ∧
    dget (TimetableManager.init [smallClass] ["P"] ["G"] [("Mon", "9")] ["R"]
      (some [])).room_capacity "R" = some 30 :=
  default_capacity_thirty [smallClass] ["P"] ["G"] [("Mon", "9")] ["R"] "R" (by decide)

/-! ### Claim C6: diagnostics -/

theorem all_slots_in_char {d : List (String × List (Slot × Occ))} {owner : String} :
    ∀ {slots : List Slot} {b : Bool},
      all_slots_in d owner slots = some b →
      (b = true ↔ ∀ t ∈ slots, ∃ sched, dget d owner = some sched ∧ dmem sched t = true) := by
  intro slots
  induction slots with
  | nil =>
    intro b h
    simp [all_slots_in] at h
    subst h
    simp
  | cons t ts ih =>
    intro b h
    unfold all_slots_in at h
    rw [Option.bind_eq_some] at h
    obtain ⟨sched, hd, h⟩ := h
    by_cases hm : dmem sched t = true
    · rw [if_pos hm] at h
      have hiff := ih h
      constructor
      · intro hb t' ht'
        rcases List.mem_cons.mp ht' with rfl | ht''
        · exact ⟨sched, hd, hm⟩
        · exact (hiff.mp hb) t' ht''
      · intro hall
        exact hiff.mpr fun t' ht' => hall t' (List.mem_cons_of_mem _ ht')
    · rw [if_neg hm] at h
      obtain rfl := Option.some.inj h
      simp only [Bool.false_eq_true, false_iff]
      intro hall
      obtain ⟨sched', hd', hm'⟩ := hall t (List.mem_cons_self t ts)
      rw [hd] at hd'
      obtain rfl := Option.some.inj hd'
      exact hm hm'

theorem all_rooms_too_small_char {caps : List (String × Nat)} {class_size : Nat} :
    ∀ {rooms : List String} {b : Bool},
      all_rooms_too_small caps class_size rooms = some b →
      (b = true ↔ ∀ r ∈ rooms, ∃ cap, dget caps r = some cap ∧ class_size > cap) := by
  intro rooms
  induction rooms with
  | nil =>
    intro b h
    simp [all_rooms_too_small] at h
    subst h
    simp
  | cons r rs ih =>
    intro b h
    unfold all_rooms_too_small at h
    rw [Option.bind_eq_some] at h
    obtain ⟨cap, hd, h⟩ := h
    by_cases hm : class_size > cap
    · rw [if_pos (decide_eq_true hm)] at h
      have hiff := ih h
      constructor
      · intro hb r' hr'
        rcases List.mem_cons.mp hr' with rfl | hr''
        · exact ⟨cap, hd, hm⟩
        · exact (hiff.mp hb) r' hr''
      · intro hall
        exact hiff.mpr fun r' hr' => hall r' (List.mem_cons_of_mem _ hr')
    · rw [if_neg (by simpa using hm)] at h
      obtain rfl := Option.some.inj h
      simp only [Bool.false_eq_true, false_iff]
      intro hall
      obtain ⟨cap', hd', hm'⟩ := hall r (List.mem_cons_self r rs)
      rw [hd] at hd'
      obtain rfl := Option.some.inj hd'
      exact hm hm'

theorem provide_feedback_elim {m : TimetableManager} {cls : ClassSession}
    {rs : List Reason} (h : provide_feedback m cls = some rs) :
    ∃ sz pEx gEx nRoom,
      dget m.class_sizes cls.name = some sz ∧
      all_slots_in m.professor_schedule cls.professor m.time_slots = some pEx ∧
      all_slots_in m.group_schedule cls.group m.time_slots = some gEx ∧
      all_rooms_too_small m.room_capacity sz m.rooms = some nRoom ∧
      rs = (if pEx then [Reason.noProfSlots cls.professor] else []) ++
           (if gEx then [Reason.noGroupSlots cls.group] else []) ++
           (if nRoom then [Reason.noRoomFits cls.name sz] else []) := by
  unfold provide_feedback at h
  rw [Option.bind_eq_some] at h
  obtain ⟨sz, hsz, h⟩ := h
  rw [Option.bind_eq_some] at h
  obtain ⟨pEx, hp, h⟩ := h
  rw [Option.bind_eq_some] at h
  obtain ⟨gEx, hg, h⟩ := h
  rw [Option.bind_eq_some] at h
  obtain ⟨nRoom, hn, h⟩ := h
  exact ⟨sz, pEx, gEx, nRoom, hsz, hp, hg, hn, (Option.some.inj h).symm⟩

theorem ite_singleton_sublist {α : Type} (b1 b2 b3 : Bool) (x y z : α) :
    ((if b1 then [x] else []) ++ (if b2 then [y] else []) ++
      (if b3 then [z] else [])).Sublist [x, y, z] := by
  have h1 : (if b1 then [x] else []).Sublist [x] := by cases b1 <;> simp
  have h2 : (if b2 then [y] else []).Sublist [y] := by cases b2 <;> simp
  have h3 : (if b3 then [z] else []).Sublist [z] := by cases b3 <;> simp
  exact (h1.append h2).append h3

/-- C6: Diagnostics correctness and completeness.  First part: a successful
`provide_feedback` call reports a reason exactly for each of the three
conditions — professor exhausted, group exhausted, no room fits — that
actually holds, and the reported list is a sublist of the canonical
professor/group/room order (so when none holds, the list is empty and nothing
is printed).  Second part: when the professor's slots are exhausted, every
subsequently processed class of that professor that ends rejected carries the
no-available-time-slots-for-professor reason. -/
theorem diagnostics_exact :
    (∀ (m : TimetableManager) (cls : ClassSession) (rs : List Reason) (sz : Nat),
       dget m.class_sizes cls.name = some sz →
       provide_feedback m cls = some rs →
       ((Reason.noProfSlots cls.professor ∈ rs ↔ ProfExhausted m cls.professor) ∧
        (Reason.noGroupSlots cls.group ∈ rs ↔ GroupExhausted m cls.group) ∧
        (Reason.noRoomFits cls.name sz ∈ rs ↔ NoRoomFits m sz) ∧
        rs.Sublist [Reason.noProfSlots cls.professor, Reason.noGroupSlots cls.group,
          Reason.noRoomFits cls.name sz])) ∧
    (∀ (m : TimetableManager) (cls : ClassSession) (mF : TimetableManager)
       (rs : List Reason),
       ProfExhausted m cls.professor →
       schedule_class m cls = some (mF, ScheduleOutcome.rejected rs) →
       Reason.noProfSlots cls.professor ∈ rs) := by
  constructor
  · intro m cls rs sz hsz hfb
    obtain ⟨sz', pEx, gEx, nRoom, hsz', hp, hg, hn, hrs⟩ := provide_feedback_elim hfb
    rw [hsz] at hsz'
    obtain rfl := Option.some.inj hsz'
    have hpiff := all_slots_in_char hp
    have hgiff := all_slots_in_char hg
    have hniff := all_rooms_too_small_char hn
    have hpiff' : pEx = true ↔ ProfExhausted m cls.professor := hpiff
    have hgiff' : gEx = true ↔ GroupExhausted m cls.group := hgiff
    have hniff' : nRoom = true ↔ NoRoomFits m sz := hniff
    subst hrs
    refine ⟨?_, ?_, ?_, ite_singleton_sublist pEx gEx nRoom _ _ _⟩
    · rw [← hpiff']
      cases pEx <;> cases gEx <;> cases nRoom <;> simp
    · rw [← hgiff']
      cases pEx <;> cases gEx <;> cases nRoom <;> simp
    · rw [← hniff']
      cases pEx <;> cases gEx <;> cases nRoom <;> simp
  · intro m cls mF rs hpe hrun
    rcases schedule_class_cases hrun with ⟨s, r, hout, _, _⟩ | ⟨reasons, hout, _, _, hfb⟩
    · cases hout
    · obtain rfl : reasons = rs := by
        cases hout
        rfl
      obtain ⟨sz, pEx, gEx, nRoom, _, hp, _, _, hrs⟩ := provide_feedback_elim hfb
      have hpEx : pEx = true := (all_slots_in_char hp).mpr hpe
      subst hpEx
      subst hrs
      exact List.mem_append_left _ (List.mem_append_left _ (List.mem_cons_self _ _))

/-- Witness for C6 at a concrete input: in `exhaustedManager` professor `P`
occupies the whole one-slot universe, and the next class of `P` is rejected
with the professor-exhausted reason. -/
theorem diagnostics_exact_witness :
    ∃ mF rs,
      schedule_class exhaustedManager exhaustedClass =
        some (mF, ScheduleOutcome.rejected rs) ∧
      Reason.noProfSlots "P" ∈ rs := by
  have hpe : ProfExhausted exhaustedManager exhaustedClass.professor := by
    intro t ht
    refine ⟨[(("Mon", "9"), ⟨"X", "R", "G"⟩)], rfl, ?_⟩
    simp [exhaustedManager] at ht
    subst ht
    rfl
  have hrun : schedule_class exhaustedManager exhaustedClass =
      some (exhaustedManager, ScheduleOutcome.rejected [Reason.noProfSlots "P"]) := rfl
  exact ⟨exhaustedManager, [Reason.noProfSlots "P"], hrun,
    diagnostics_exact.2 exhaustedManager exhaustedClass exhaustedManager _ hpe hrun⟩

/-! ### Claim C7: preference setters -/

/-- C7: Setting preferences for an unknown professor (resp. group) id is a
silent no-op leaving the entire state unchanged; for a known id it replaces
exactly that id's preference list and changes nothing else — no other
preference entry and no other field of the manager. -/
theorem set_preferences_contract :
    ∀ (m : TimetableManager) (p g : String) (prefs gprefs : List Slot),
      (dget m.professor_preferences p = none →
        set_professor_preferences m p prefs = m) ∧
      (dget m.group_preferences g = none →
        set_group_preferences m g gprefs = m) ∧
      ((dget m.professor_preferences p).isSome = true →
        dget (set_professor_preferences m p prefs).professor_preferences p = some prefs ∧
        (∀ q, q ≠ p →
          dget (set_professor_preferences m p prefs).professor_preferences q =
            dget m.professor_preferences q) ∧
        (set_professor_preferences m p prefs).classes = m.classes ∧
        (set_professor_preferences m p prefs).professors = m.professors ∧
        (set_professor_preferences m p prefs).groups = m.groups ∧
        (set_professor_preferences m p prefs).time_slots = m.time_slots ∧
        (set_professor_preferences m p prefs).rooms = m.rooms ∧
        (set_professor_preferences m p prefs).room_capacity = m.room_capacity ∧
        (set_professor_preferences m p prefs).class_sizes = m.class_sizes ∧
        (set_professor_preferences m p prefs).group_preferences = m.group_preferences ∧
        (set_professor_preferences m p prefs).professor_schedule = m.professor_schedule ∧
        (set_professor_preferences m p prefs).group_schedule = m.group_schedule) ∧
      ((dget m.group_preferences g).isSome = true →
        dget (set_group_preferences m g gprefs).group_preferences g = some gprefs ∧
        (∀ q, q ≠ g →
          dget (set_group_preferences m g gprefs).group_preferences q =
            dget m.group_preferences q) ∧
        (set_group_preferences m g gprefs).classes = m.classes ∧
        (set_group_preferences m g gprefs).professors = m.professors ∧
        (set_group_preferences m g gprefs).groups = m.groups ∧
        (set_group_preferences m g gprefs).time_slots = m.time_slots ∧
        (set_group_preferences m g gprefs).rooms = m.rooms ∧
        (set_group_preferences m g gprefs).room_capacity = m.room_capacity ∧
        (set_group_preferences m g gprefs).class_sizes = m.class_sizes ∧
        (set_group_preferences m g gprefs).professor_preferences = m.professor_preferences ∧
        (set_group_preferences m g gprefs).professor_schedule = m.professor_schedule ∧
        (set_group_preferences m g gprefs).group_schedule = m.group_schedule) := by
  intro m p g prefs gprefs
  refine ⟨?_, ?_, ?_, ?_⟩
  · intro h
    unfold set_professor_preferences dmem
    rw [h]
    simp
  · intro h
    unfold set_group_preferences dmem
    rw [h]
    simp
  · intro hs
    unfold set_professor_preferences
    rw [if_pos (show dmem m.professor_preferences p = true from hs)]
    exact ⟨dget_dset_self _ _ _, fun q hq => dget_dset_ne _ _ _ _ hq,
      rfl, rfl, rfl, rfl, rfl, rfl, rfl, rfl, rfl, rfl⟩
  · intro hs
    unfold set_group_preferences
    rw [if_pos (show dmem m.group_preferences g = true from hs)]
    exact ⟨dget_dset_self _ _ _, fun q hq => dget_dset_ne _ _ _ _ hq,
      rfl, rfl, rfl, rfl, rfl, rfl, rfl, rfl, rfl, rfl⟩

/-- Witness for C7 at a concrete input: `Q` is an unknown professor id of
`smallManager` (silent no-op), `P` a known one (list replaced). -/
theorem set_preferences_contract_witness :
    set_professor_preferences smallManager "Q" [("Mon", "9")] = smallManager ∧
    dget (set_professor_preferences smallManager "P" [("Mon", "9")]).professor_preferences
      "P" = some [("Mon", "9")] := by
  have h := set_preferences_contract smallManager "P" "G" [("Mon", "9")] []
  have h2 := set_preferences_contract smallManager "Q" "G" [("Mon", "9")] []
  exact ⟨h2.1 (by decide), (h.2.2.1 (by decide)).1⟩

/-! ### Claim C8: the feasibility query is a pure function of the state -/

/-- C8: `is_valid` is embedded as a pure function — it returns a value and no
new state, so it cannot mutate anything, and repeated calls on the same state
trivially agree.  The substantive content proved here: its result depends only
on the parts of the state snapshot it reads (the size entry of the class's
name, the professor's and group's schedule entries, and the room's capacity
entry), so any two states agreeing there — e.g. the same state at two times
with no intervening mutation — give the same answer. -/
theorem is_valid_pure :
    ∀ (m₁ m₂ : TimetableManager) (cls : ClassSession) (slot : Slot) (room : String),
      dget m₁.class_sizes cls.name = dget m₂.class_sizes cls.name →
      dget m₁.professor_schedule cls.professor = dget m₂.professor_schedule cls.professor →
      dget m₁.group_schedule cls.group = dget m₂.group_schedule cls.group →
      dget m₁.room_capacity room = dget m₂.room_capacity room →
      is_valid m₁ cls slot room = is_valid m₂ cls slot room := by
  intro m₁ m₂ cls slot room h1 h2 h3 h4
  unfold is_valid
  rw [h1, h2, h3, h4]

/-- Witness for C8 at a concrete input: changing a field `is_valid` never
reads (the slot universe) does not change its answer. -/
theorem is_valid_pure_witness :
    is_valid smallManager smallClass ("Mon", "9") "R" =
      is_valid smallManagerVariant smallClass ("Mon", "9") "R" :=
  is_valid_pure smallManager smallManagerVariant smallClass ("Mon", "9") "R"
    rfl rfl rfl rfl

/-! ### Claim C9: rooms are never conflict-checked -/

/-- C9: `is_valid` ignores room occupancy entirely: replacing any *other*
professor's (resp. group's) schedule entry — in particular adding an occupancy
record for the very same room and slot — leaves its result unchanged; and on
the reference inputs the engine indeed commits two distinct classes (Math of
Prof. A and Chemistry of Prof. C) to the same (slot, room) pair
(Monday 9:00-10:00, Room 102). -/
theorem rooms_not_conflict_checked :
    (∀ (m : TimetableManager) (cls : ClassSession) (slot : Slot) (room : String)
       (p : String) (sched2 : List (Slot × Occ)), p ≠ cls.professor →
       is_valid { m with professor_schedule := dset m.professor_schedule p sched2 }
         cls slot room = is_valid m cls slot room) ∧
    (∀ (m : TimetableManager) (cls : ClassSession) (slot : Slot) (room : String)
       (g : String) (sched2 : List (Slot × Occ)), g ≠ cls.group →
       is_valid { m with group_schedule := dset m.group_schedule g sched2 }
         cls slot room = is_valid m cls slot room) ∧
    (∃ mF logF schedA schedC occA occC,
       generate_schedule exampleManager = some (mF, logF) ∧
       dget mF.professor_schedule "Prof. A" = some schedA ∧
       dget mF.professor_schedule "Prof. C" = some schedC ∧
       dget schedA ("Monday", "9:00-10:00") = some occA ∧
       dget schedC ("Monday", "9:00-10:00") = some occC ∧
       occA.room = "Room 102" ∧ occC.room = "Room 102" ∧
       occA.className ≠ occC.className) := by
  refine ⟨?_, ?_, ?_⟩
  · intro m cls slot room p sched2 hp
    unfold is_valid
    rw [show dget (dset m.professor_schedule p sched2) cls.professor =
        dget m.professor_schedule cls.professor from dget_dset_ne _ _ _ _ (Ne.symm hp)]
  · intro m cls slot room g sched2 hg
    unfold is_valid
    rw [show dget (dset m.group_schedule g sched2) cls.group =
        dget m.group_schedule cls.group from dget_dset_ne _ _ _ _ (Ne.symm hg)]
  · exact ⟨_, _, _, _, _, _, rfl, rfl, rfl, rfl, rfl, rfl, rfl, by decide⟩

/-- Witness for C9 at a concrete input. -/
theorem rooms_not_conflict_checked_witness :
    is_valid { smallManager with
        professor_schedule := dset smallManager.professor_schedule "Q" [] }
      smallClass ("Mon", "9") "R" =
    is_valid smallManager smallClass ("Mon", "9") "R" :=
  rooms_not_conflict_checked.1 smallManager smallClass ("Mon", "9") "R" "Q" []
    (by decide)

/-! ### Claim C10: class size is resolved by name, last definition wins -/

theorem dget_class_sizes_foldl :
    ∀ (classes : List ClassSession) (acc : List (String × Nat)) (n : String),
      dget (classes.foldl (fun a c => dset a c.name (c.size.getD 20)) acc) n =
        match lastSizeFor classes n with
        | some s => some s
        | none => dget acc n := by
  intro classes
  induction classes with
  | nil => intro acc n; rfl
  | cons c cs ih =>
    intro acc n
    rw [List.foldl_cons, ih (dset acc c.name (c.size.getD 20)) n]
    cases hcs : lastSizeFor cs n with
    | some s => simp [lastSizeFor, hcs]
    | none =>
      simp only [lastSizeFor, hcs]
      by_cases hn : c.name = n
      · subst hn
        simp [dget_dset_self]
      · simp [hn, dget_dset_ne _ _ _ _ (fun h => hn h.symm)]

/-- C10: The class-size table maps each name to the size field (default 20)
of the *last* input class bearing that name, and the feasibility check uses
that name-keyed size: concretely, `cexClassBig` (own size 100) passes
`is_valid` against a capacity-10 room because the later same-named session has
size 10. -/
theorem class_size_by_name_last_wins :
    (∀ (classes : List ClassSession) (n : String),
       dget (class_sizes_of classes) n = lastSizeFor classes n) ∧
    is_valid cexManager cexClassBig ("Mon", "9") "R" = some true ∧
    cexClassBig.size = some 100 ∧
    dget cexManager.room_capacity "R" = some 10 := by
  refine ⟨?_, rfl, rfl, rfl⟩
  intro classes n
  rw [class_sizes_of, dget_class_sizes_foldl classes [] n]
  cases lastSizeFor classes n <;> rfl

end Timetable
